import Mathlib

/-!
Verification development for the checkpointed streaming partition pipeline
of this repository (scripts `organize.py`, `organize2.py` and helpers).
Strings are modelled as `List Char`, decoded records as an opaque structure
carrying the two fields the pipeline reads, and the filesystem / queues as
explicit functional state.
-/

/-- Pointwise update of a function, used to model in-place updates of
Python dictionaries keyed by decidable-equality keys. -/
def upd {α β : Type} [DecidableEq α] (f : α → β) (a : α) (b : β) : α → β :=
  fun x => if x = a then b else f x

/-- Python `re` word character `\w` under the default Unicode semantics:
underscore or any Unicode alphanumeric.  This model is exact on code points
below U+0250 (ASCII alphanumerics, underscore, Latin-1 letters except
U+00D7 and U+00F7, Latin Extended-A and B); every concrete character the
theorems below evaluate lies in that range. -/
def pyIsWordChar (c : Char) : Bool :=
  c.isAlphanum || c == '_' ||
    decide (192 ≤ c.toNat ∧ c.toNat ≤ 591 ∧ c.toNat ≠ 215 ∧ c.toNat ≠ 247)

/-- The character class kept by `re.sub(r'[^\w\-]', '', name)` in
`sanitize_subreddit_name` (`organize.py` lines 45-47, `organize2.py`
lines 54-56): Python word characters and the hyphen. -/
def keepChar (c : Char) : Bool :=
  pyIsWordChar c || c == '-'

/-- `organize.py` lines 45-47 / `organize2.py` lines 54-56:
`sanitized = re.sub(r'[^\w\-]', '', name); return sanitized[:50]`. -/
def sanitize_subreddit_name (name : List Char) : List Char :=
  (name.filter keepChar).take 50

/-- The character class `[A-Za-z0-9_-]` of the spec's regular expression
(`Char.isAlphanum` is exactly ASCII `[A-Za-z0-9]`). -/
def specAllowedChar (c : Char) : Bool :=
  c.isAlphanum || c == '_' || c == '-'

/-- The spec's regular expression for sanitized output. -/
def matchesSpecRegex (s : List Char) : Bool :=
  decide (s.length ≤ 50) && s.all specAllowedChar

/-- Proleptic-Gregorian (year, month) of a day count relative to
1970-01-01 (Howard Hinnant's civil-from-days algorithm); the day of month
is not needed by the pipeline and is dropped. -/
def civilFromDays (z0 : Int) : Int × Nat :=
  let z : Int := z0 + 719468
  let era : Int := Int.fdiv z 146097
  let doe : Nat := (z - era * 146097).toNat
  let yoe : Nat := (doe - doe / 1460 + doe / 36524 - doe / 146096) / 365
  let y : Int := (yoe : Int) + era * 400
  let doy : Nat := doe - (365 * yoe + yoe / 4 - yoe / 100)
  let mp : Nat := (5 * doy + 2) / 153
  let m : Nat := if mp < 10 then mp + 3 else mp - 9
  (if m ≤ 2 then y + 1 else y, m)

/-- `organize.py` lines 49-51: `datetime.fromtimestamp(created_utc, UTC)`
followed by `strftime("%Y-%m")`; the `YYYY-MM` label is represented by the
(year, month) pair.  `organize2.py` lines 58-60 compute the same label via
`numpy datetime64[s]` truncated to month. -/
def get_month_year (created_utc : Int) : Int × Nat :=
  civilFromDays (Int.fdiv created_utc 86400)

/-- One decoded record, restricted to the two fields the pipeline
accesses: `row["subreddit"]` and `row["created_utc"]`. -/
structure Record where
  subreddit : List Char
  created_utc : Int
deriving DecidableEq

/-- The classification performed by `organize.py`: the allow-list filter of
`process_file` lines 103-108 (`if WHITELIST and subreddit not in
WHITELIST: continue`) composed with the shard naming of
`write_jsonl_chunk` lines 53-61, which keys the output file by
`(month_year, sanitize_subreddit_name(subreddit))`. -/
def organizeClassify (whitelist : List (List Char)) (row : Record) :
    Option ((Int × Nat) × List Char) :=
  if whitelist ≠ [] ∧ row.subreddit ∉ whitelist then none
  else some (get_month_year row.created_utc, sanitize_subreddit_name row.subreddit)

/-- `organize2.py` lines 62-73 (`process_batch`): a record is kept exactly
when `WHITELIST_HASH.get(subreddit, False)` is true, i.e. when its
subreddit is a key of the allow-list hash; kept records are grouped under
`(month_year, subreddit)`.  The nested `defaultdict` grouping is modelled
as a key-tagged flat list. -/
def process_batch (whitelistHash : List (List Char)) (batch : List Record) :
    List (((Int × Nat) × List Char) × Record) :=
  batch.filterMap (fun row =>
    if row.subreddit ∈ whitelistHash then
      some ((get_month_year row.created_utc, row.subreddit), row)
    else none)

/-- Partition key of `organize2.py`'s `BufferedWriter`: the raw
`(month_year, subreddit)` pair the buffers and file handles are keyed by
(`BufferedWriter.write` line 82). -/
structure WKey where
  my : Int × Nat
  sub : List Char
deriving DecidableEq

/-- One line appended to a shard file; in `organize2.py` a line is
`orjson.dumps(data) + b'\n'` for a whole group `data` of records
(`process_file` lines 138-140), modelled as the list of the group's
records (records are opaque identifiers here). -/
abbrev Line := List Nat

/-- Serialized byte length of a line, abstracted as its record count plus
the newline; none of the theorems below depend on the size function. -/
def lineBytes (l : Line) : Nat := l.length + 1

/-- Byte count held in one buffer (`self.buffers[key].tell()`). -/
def bufBytes (ls : List Line) : Nat := (ls.map lineBytes).sum

/-- State of `organize2.py`'s `BufferedWriter` (lines 75-108): per-key
in-memory buffers, the set of keys ever written (the keys of the
`defaultdict`), and the append-only log of lines flushed to disk, each
tagged with the key it was flushed for. -/
structure BW where
  keys : List WKey
  buf : WKey → List Line
  flushed : List (WKey × Line)

/-- `BufferedWriter.flush` on a single key (lines 93-103): append the
buffer's contents to the backing file for that key and reset the buffer. -/
def flushKey (w : BW) (k : WKey) : BW :=
  { w with
    buf := upd w.buf k []
    flushed := w.flushed ++ (w.buf k).map (fun l => (k, l)) }

/-- `BufferedWriter.write` (lines 81-85): append the data to the key's
buffer, registering the key, then flush that key when the buffered byte
count (`self.buffers[key].tell()`) reaches `BUFFER_SIZE` (the threshold
`B`). -/
def bwWrite (B : Nat) (w : BW) (k : WKey) (l : Line) : BW :=
  if B ≤ bufBytes (w.buf k ++ [l]) then
    flushKey
      ⟨if k ∈ w.keys then w.keys else w.keys ++ [k],
       upd w.buf k (w.buf k ++ [l]), w.flushed⟩ k
  else
    ⟨if k ∈ w.keys then w.keys else w.keys ++ [k],
     upd w.buf k (w.buf k ++ [l]), w.flushed⟩

/-- `BufferedWriter.flush(None)` (lines 87-92): flush every key of the
buffer dictionary. -/
def flushAll (w : BW) : BW := w.keys.foldl flushKey w

/-- `BufferedWriter.close` (lines 105-108): flush everything, then release
the file handles (handle release has no observable effect here). -/
def bwClose (w : BW) : BW := flushAll w

/-- A whole run of appends through a fresh `BufferedWriter`. -/
def runWriter (B : Nat) (ops : List (WKey × Line)) : BW :=
  ops.foldl (fun w p => bwWrite B w p.1 p.2) ⟨[], fun _ => [], []⟩

/-- Filesystem path a key's flushes land in: `BufferedWriter.flush`
lines 96-99 build `<month_year>/<sanitize_subreddit_name(subreddit)>.jsonl`. -/
def pathOf (k : WKey) : (Int × Nat) × List Char :=
  (k.my, sanitize_subreddit_name k.sub)

/-- Content of the shard file at path `p`: append-mode writes accumulate
in flush order. -/
def shard (w : BW) (p : (Int × Nat) × List Char) : List Line :=
  (w.flushed.filter (fun e => pathOf e.1 == p)).map Prod.snd

/-- Lines attributable to key `k` in writer state `w`: the lines already
flushed for `k` followed by the lines still buffered for `k` — the
quantity conserved by every `BufferedWriter` operation. -/
def bwOut (w : BW) (k : WKey) : List (WKey × Line) :=
  w.flushed.filter (fun e => e.1 == k) ++ (w.buf k).map (fun l => (k, l))

/-- `organize.py` lines 53-64 (`write_jsonl_chunk`): drop the chunk with a
log message when the sanitized subreddit is empty (the returned flag
records that the skip message was printed); otherwise append every item as
its own line to the shard `<month_year>/<sanitized>.jsonl`.  The
append-mode filesystem is modelled as a log of (shard path, record)
appends. -/
def write_jsonl_chunk (month_year : Int × Nat) (subreddit : List Char)
    (data : List Nat) (log : List (((Int × Nat) × List Char) × Nat)) :
    List (((Int × Nat) × List Char) × Nat) × Bool :=
  let sanitized := sanitize_subreddit_name subreddit
  if sanitized.isEmpty then (log, true)
  else (log ++ data.map (fun item => ((month_year, sanitized), item)), false)

/-- Kind of an output file of the organizer: uncompressed shard or
compressed result. -/
inductive FKind where
  | jsonl
  | zst
deriving DecidableEq

/-- One file of an output month directory (file stems are opaque
identifiers). -/
structure DFile where
  base : Nat
  kind : FKind
  content : List Nat
deriving DecidableEq

/-- `organize.py` lines 66-70 (`compress_to_zst`): stream the input file
through the zstd compressor into the output file.  Compression is modelled
as the identity on contents (it is injective and content-preserving; only
presence and emptiness of contents matter to the claims). -/
def compress_to_zst (content : List Nat) : List Nat := content

/-- `os.remove` of the file with the given stem and kind. -/
def removeFile (fs : List DFile) (b : Nat) (k : FKind) : List DFile :=
  fs.filter (fun g => !(g.base == b && g.kind == k))

/-- Opening a path with mode `'wb'` and writing: any existing file at the
path is truncated and replaced. -/
def writeFile (fs : List DFile) (f : DFile) : List DFile :=
  removeFile fs f.base f.kind ++ [f]

/-- Body of the loop of `compress_output_files` (`organize.py` lines
217-222): compress `<stem>.jsonl` to `<stem>.zst`, then remove the
original; no check of the compressed result and no check for an existing
compressed file is made. -/
def compactStep (fs : List DFile) (f : DFile) : List DFile :=
  removeFile (writeFile fs ⟨f.base, FKind.zst, compress_to_zst f.content⟩)
    f.base FKind.jsonl

/-- `organize.py` lines 212-222 (`compress_output_files`): run
`compactStep` over every `.jsonl` file of the listing taken at entry. -/
def compress_output_files (fs : List DFile) : List DFile :=
  (fs.filter (fun f => f.kind == FKind.jsonl)).foldl compactStep fs

/-- State of the writer/checkpoint stage of `organize.py` for a single
input file: the bounded work queue of batches (each batch identified by
the offset `f.tell()` recorded with it at `queue.put` line 119/133), the
batch each writer process currently holds together with whether it has
been flushed by `process_chunk`, the checkpoint queue, the log of batch
flushes in the order they happened, and the sequence of offsets written to
the checkpoint file by `checkpoint_process` (lines 160-175). -/
structure PipeState where
  workQueue : List Nat
  slot : Nat → Option (Nat × Bool)
  commitQueue : List Nat
  flushedLog : List Nat
  committed : List Nat

/-- One scheduling event of the concurrent stage: a writer process takes a
batch from the queue (`writer_process` line 148), flushes it
(`process_chunk` line 152), or reports its offset to the checkpoint queue
(line 153); or `checkpoint_process` commits the next reported offset to
the checkpoint file (lines 167-170). -/
inductive PipeEv where
  | takeBatch (w : Nat)
  | flushBatch (w : Nat)
  | putCommit (w : Nat)
  | commitStep

/-- Small-step interleaving semantics of `writer_process` ×
`checkpoint_process`; `none` when the event is not enabled. -/
def pipeStep (s : PipeState) : PipeEv → Option PipeState
  | .takeBatch w =>
    match s.workQueue, s.slot w with
    | o :: rest, none =>
      some { s with workQueue := rest, slot := upd s.slot w (some (o, false)) }
    | _, _ => none
  | .flushBatch w =>
    match s.slot w with
    | some (o, false) =>
      some { s with slot := upd s.slot w (some (o, true)),
                    flushedLog := s.flushedLog ++ [o] }
    | _ => none
  | .putCommit w =>
    match s.slot w with
    | some (o, true) =>
      some { s with slot := upd s.slot w none,
                    commitQueue := s.commitQueue ++ [o] }
    | _ => none
  | .commitStep =>
    match s.commitQueue with
    | o :: rest =>
      some { s with commitQueue := rest, committed := s.committed ++ [o] }
    | _ => none

/-- Initial state: the producer has enqueued the given batches in file
order; no writer holds work. -/
def initPipe (batches : List Nat) : PipeState :=
  ⟨batches, fun _ => none, [], [], []⟩

/-- Run a schedule of events; `none` as soon as an event is not enabled. -/
def runPipe (s : PipeState) : List PipeEv → Option PipeState
  | [] => some s
  | e :: es =>
    match pipeStep s e with
    | some s' => runPipe s' es
    | none => none

/-- One pull from the record stream of `getFileJsonStream`: either a
decoded row, or a decode error raised while producing the next row
(decoding happens inside the stream; the loop body of
`process_file` only ever sees already-decoded rows). -/
inductive StreamItem where
  | okRow (r : Nat)
  | decodeFailure

/-- The iteration structure of `organize.py` `process_file` lines 88-143:
`for row in jsonStream` with a `try/except` around the loop *body* only.
By Python semantics an exception raised by the iterator's `next` call is
outside that inner handler, so it propagates to the function-level
`except Exception` (lines 141-143), which abandons the file and returns
`start_position`.  Result: rows processed so far, paired with `true` when
the file was abandoned by the outer handler. -/
def process_file_rows : List StreamItem → List Nat → List Nat × Bool
  | [], acc => (acc, false)
  | .okRow r :: rest, acc => process_file_rows rest (acc ++ [r])
  | .decodeFailure :: _, acc => (acc, true)

/-- `organize.py` `process_file` lines 89-93: a negative start position is
reported with a warning and replaced by 0 before `f.seek`.  The flag
records that the warning was printed. -/
def process_file_clamp (start_position : Int) : Int × Bool :=
  if start_position < 0 then (0, true) else (start_position, false)

/-- Sanity check of the calendar embedding at the epoch. -/
theorem get_month_year_epoch : get_month_year 0 = (1970, 1) := by decide

/-- Sanity check of the calendar embedding at 2023-11-14T22:13:20Z. -/
theorem get_month_year_modern : get_month_year 1700000000 = (2023, 11) := by decide

/-- Every character surviving sanitization was kept by the regex class and
came from the input. -/
theorem mem_sanitize {c : Char} {x : List Char}
    (hc : c ∈ sanitize_subreddit_name x) : keepChar c = true ∧ c ∈ x := by
  have hc' : c ∈ x.filter keepChar := List.take_subset _ _ hc
  exact ⟨(List.mem_filter.mp hc').2, (List.mem_filter.mp hc').1⟩

/-- On ASCII characters, Python's kept class coincides with the spec's
`[A-Za-z0-9_-]`. -/
theorem keepChar_ascii {c : Char} (h : c.toNat < 128)
    (hk : keepChar c = true) : specAllowedChar c = true := by
  have hno : ¬(192 ≤ c.toNat ∧ c.toNat ≤ 591 ∧ c.toNat ≠ 215 ∧ c.toNat ≠ 247) := by
    intro hcon
    omega
  unfold keepChar pyIsWordChar at hk
  unfold specAllowedChar
  rw [decide_eq_false hno] at hk
  simpa using hk

/-- C1 (amended): in `organize.py`, a record whose subreddit is in the
allow-list is classified to `some (period, sanitized)`, a record outside a
non-empty allow-list to `none`, and an empty allow-list admits every
record; in `organize2.py`'s `process_batch`, membership is required
unconditionally, so a record survives exactly when its subreddit is in the
allow-list (an empty allow-list admits nothing). -/
theorem claim1_classification (W : List (List Char)) (r : Record) :
    (r.subreddit ∈ W →
      organizeClassify W r =
        some (get_month_year r.created_utc, sanitize_subreddit_name r.subreddit))
  ∧ (W = [] →
      organizeClassify W r =
        some (get_month_year r.created_utc, sanitize_subreddit_name r.subreddit))
  ∧ (W ≠ [] → r.subreddit ∉ W → organizeClassify W r = none)
  ∧ process_batch W [r] =
      (if r.subreddit ∈ W then [((get_month_year r.created_utc, r.subreddit), r)]
       else []) := by
  refine ⟨fun hmem => ?_, fun hW => ?_, fun h1 h2 => ?_, ?_⟩
  · simp [organizeClassify, hmem]
  · simp [organizeClassify, hW]
  · simp [organizeClassify, h1, h2]
  · by_cases hm : r.subreddit ∈ W <;> simp [process_batch, hm]

/-- C1 witness: allow-list `{a}`, record in subreddit `a` at the epoch. -/
theorem claim1_classification_witness :
    organizeClassify [['a']] ⟨['a'], 0⟩ = some ((1970, 1), ['a']) := by
  rw [(claim1_classification [['a']] ⟨['a'], 0⟩).1 (by decide)]
  decide

/-- C1 counterexample: with an empty allow-list, `organize2.py`'s
`process_batch` classifies a non-empty batch to nothing at all, though the
claim says an empty allow-list lets every record through. -/
theorem claim1_counterexample :
    process_batch [] [⟨['a'], 0⟩] = [] ∧ ((⟨['a'], 0⟩ : Record) :: []) ≠ [] := by
  decide

/-- C3 (amended): sanitized output has length at most 50 and consists of
Python word characters and hyphens; the spec's ASCII-only regular
expression `[A-Za-z0-9_-]{0,50}` is guaranteed only when the input is
ASCII. -/
theorem claim3_sanitize_output_class (x : List Char) :
    (sanitize_subreddit_name x).length ≤ 50
  ∧ (∀ c ∈ sanitize_subreddit_name x, keepChar c = true)
  ∧ ((∀ c ∈ x, c.toNat < 128) →
      matchesSpecRegex (sanitize_subreddit_name x) = true) := by
  have hlen : (sanitize_subreddit_name x).length ≤ 50 := List.length_take_le _ _
  refine ⟨hlen, fun c hc => (mem_sanitize hc).1, fun hx => ?_⟩
  unfold matchesSpecRegex
  rw [Bool.and_eq_true, decide_eq_true_eq, List.all_eq_true]
  exact ⟨hlen, fun c hc => keepChar_ascii (hx c (mem_sanitize hc).2) (mem_sanitize hc).1⟩

/-- C3 witness: an ASCII input whose sanitized form matches the spec's
regular expression. -/
theorem claim3_sanitize_output_class_witness :
    matchesSpecRegex (sanitize_subreddit_name ['a', 'B', '!', '3']) = true :=
  (claim3_sanitize_output_class ['a', 'B', '!', '3']).2.2 (by decide)

/-- C3 counterexample: Python's `\w` is Unicode-aware, so `é` survives
sanitization and the output does not match `^[A-Za-z0-9_-]{0,50}$`. -/
theorem claim3_counterexample :
    sanitize_subreddit_name ['é'] = ['é']
  ∧ matchesSpecRegex (sanitize_subreddit_name ['é']) = false := by
  decide

/-- C4: sanitization is idempotent. -/
theorem claim4_sanitize_idempotent (x : List Char) :
    sanitize_subreddit_name (sanitize_subreddit_name x) = sanitize_subreddit_name x := by
  have h : ∀ a ∈ (x.filter keepChar).take 50, keepChar a := by
    intro a ha
    exact (List.mem_filter.mp (List.take_subset _ _ ha)).2
  unfold sanitize_subreddit_name
  rw [List.filter_eq_self.mpr h, List.take_take, min_self]

/-- C5 (amended): names that differ only in characters stripped by the
regex (outside Python's `\w` plus hyphen) sanitize identically; casing is
preserved, so names differing in case are not merged. -/
theorem claim5_stripped_chars_ignored (x y : List Char)
    (h : x.filter keepChar = y.filter keepChar) :
    sanitize_subreddit_name x = sanitize_subreddit_name y := by
  unfold sanitize_subreddit_name
  rw [h]

/-- C5 witness: `a!` and `a` differ only in a stripped character and
sanitize identically. -/
theorem claim5_stripped_chars_ignored_witness :
    sanitize_subreddit_name ['a', '!'] = sanitize_subreddit_name ['a'] :=
  claim5_stripped_chars_ignored _ _ (by decide)

/-- C5 counterexample: `A` and `a` differ only in casing yet sanitize to
different names — sanitization never lower-cases. -/
theorem claim5_counterexample :
    List.map Char.toLower ['A'] = List.map Char.toLower ['a']
  ∧ sanitize_subreddit_name ['A'] ≠ sanitize_subreddit_name ['a'] := by
  decide

/-- C2 (failing execution): with two writer processes, the batch ending at
offset 20 can be flushed and committed while the batch ending at offset 10
is still unflushed (committed = [20], flushedLog = [20]), and the full
schedule commits the decreasing sequence [20, 10] to the checkpoint
file. -/
theorem claim2_commit_race :
    (runPipe (initPipe [10, 20])
        [.takeBatch 1, .takeBatch 2, .flushBatch 2, .putCommit 2, .commitStep]).map
      (fun s => (s.committed, s.flushedLog)) = some ([20], [20])
  ∧ (runPipe (initPipe [10, 20])
        [.takeBatch 1, .takeBatch 2, .flushBatch 2, .putCommit 2, .commitStep,
         .flushBatch 1, .putCommit 1, .commitStep]).map PipeState.committed
      = some [20, 10]
  ∧ ¬((20 : Nat) ≤ 10) := by
  decide

/-- C8 (failing execution): a decode error raised by the stream while
producing the next row aborts the file — the rows after the error are
never processed, contradicting skip-and-continue. -/
theorem claim8_decode_error_aborts_file :
    process_file_rows [.okRow 1, .decodeFailure, .okRow 2] [] = ([1], true)
  ∧ ([1] : List Nat) ≠ [1, 2] := by
  decide

/-- C10: a negative start offset is clamped to 0 (with a warning) and the
seek position is never negative. -/
theorem claim10_negative_start_clamped (s : Int) (h : s < 0) :
    process_file_clamp s = (0, true) ∧ 0 ≤ (process_file_clamp s).1 := by
  unfold process_file_clamp
  rw [if_pos h]
  exact ⟨rfl, le_refl 0⟩

/-- C10 witness at start offset -7. -/
theorem claim10_negative_start_clamped_witness : process_file_clamp (-7) = (0, true) :=
  (claim10_negative_start_clamped (-7) (by decide)).1

/-- Tagged lines of a key all pass that key's filter. -/
theorem filter_map_self (k : WKey) (ls : List Line) :
    (ls.map (fun l => (k, l))).filter (fun e => e.1 == k) = ls.map (fun l => (k, l)) := by
  induction ls with
  | nil => rfl
  | cons b ls ih => simp only [List.map_cons, List.filter_cons]; simp [ih]

/-- Tagged lines of a different key all fail the filter. -/
theorem filter_map_other {a k : WKey} (h : a ≠ k) (ls : List Line) :
    (ls.map (fun l => (a, l))).filter (fun e => e.1 == k) = [] := by
  induction ls with
  | nil => rfl
  | cons b ls ih => simp [List.filter_cons, ih, h]

/-- Flushing resets the flushed key's buffer and leaves the others. -/
theorem flushKey_buf (w : BW) (k k' : WKey) :
    (flushKey w k).buf k' = if k' = k then [] else w.buf k' := rfl

/-- Flushing a key moves its buffer to the file log: the per-key output is
unchanged. -/
theorem flushKey_bwOut (w : BW) (a k : WKey) : bwOut (flushKey w a) k = bwOut w k := by
  unfold bwOut flushKey
  by_cases hk : k = a
  · subst hk
    simp [List.filter_append, filter_map_self, upd]
  · simp [List.filter_append, filter_map_other (Ne.symm hk), upd, hk]

/-- A `write` call extends exactly its own key's output by the written
line. -/
theorem bwWrite_bwOut (B : Nat) (w : BW) (a : WKey) (l : Line) (k : WKey) :
    bwOut (bwWrite B w a l) k = bwOut w k ++ (if k = a then [(k, l)] else []) := by
  have hmid : ∀ ks : List WKey,
      bwOut ⟨ks, upd w.buf a (w.buf a ++ [l]), w.flushed⟩ k
        = bwOut w k ++ (if k = a then [(k, l)] else []) := by
    intro ks
    unfold bwOut
    by_cases hk : k = a
    · subst hk
      simp [upd, List.map_append, List.append_assoc]
    · simp [upd, hk]
  unfold bwWrite
  split
  · rw [flushKey_bwOut]; exact hmid _
  · exact hmid _

/-- Folding writes over a run accumulates exactly the run's lines for each
key. -/
theorem foldl_write_bwOut (B : Nat) : ∀ (ops : List (WKey × Line)) (w : BW) (k : WKey),
    bwOut (ops.foldl (fun w p => bwWrite B w p.1 p.2) w) k
      = bwOut w k ++ ops.filter (fun e => e.1 == k) := by
  intro ops
  induction ops with
  | nil => intro w k; simp
  | cons p ops ih =>
    intro w k
    rw [List.foldl_cons, ih, bwWrite_bwOut, List.filter_cons]
    by_cases hk : k = p.1
    · subst hk
      simp [List.append_assoc]
    · simp [hk, Ne.symm hk]

/-- Per-key output of a whole fresh run. -/
theorem runWriter_bwOut (B : Nat) (ops : List (WKey × Line)) (k : WKey) :
    bwOut (runWriter B ops) k = ops.filter (fun e => e.1 == k) := by
  unfold runWriter
  rw [foldl_write_bwOut]
  rfl

/-- `flush(None)` over any key list preserves per-key outputs. -/
theorem foldl_flushKey_bwOut : ∀ (ks : List WKey) (w : BW) (k : WKey),
    bwOut (ks.foldl flushKey w) k = bwOut w k := by
  intro ks
  induction ks with
  | nil => intro w k; rfl
  | cons a ks ih => intro w k; rw [List.foldl_cons, ih, flushKey_bwOut]

/-- After folding flushes over a key list, every key either flushed or
already empty has an empty buffer. -/
theorem foldl_flushKey_buf_empty : ∀ (ks : List WKey) (w : BW) (k : WKey),
    (k ∈ ks ∨ w.buf k = []) → (ks.foldl flushKey w).buf k = [] := by
  intro ks
  induction ks with
  | nil =>
    intro w k h
    rcases h with h | h
    · exact absurd h (List.not_mem_nil _)
    · simpa using h
  | cons a ks ih =>
    intro w k h
    rw [List.foldl_cons]
    rcases h with h | h
    · rcases List.mem_cons.mp h with rfl | hk
      · exact ih _ _ (Or.inr (by simp [flushKey_buf]))
      · exact ih _ _ (Or.inl hk)
    · by_cases hak : k = a
      · subst hak; exact ih _ _ (Or.inr (by simp [flushKey_buf]))
      · exact ih _ _ (Or.inr (by simp [flushKey_buf, hak, h]))

/-- Keys of a writer after a `write`. -/
theorem bwWrite_keys (B : Nat) (w : BW) (a : WKey) (l : Line) :
    (bwWrite B w a l).keys = if a ∈ w.keys then w.keys else w.keys ++ [a] := by
  unfold bwWrite flushKey
  split <;> rfl

/-- A `write` leaves the buffers of other keys alone. -/
theorem bwWrite_buf_ne (B : Nat) (w : BW) (a : WKey) (l : Line) {k : WKey}
    (h : k ≠ a) : (bwWrite B w a l).buf k = w.buf k := by
  unfold bwWrite flushKey
  split <;> simp [upd, h]

/-- Buffers of unregistered keys stay empty through a `write`. -/
theorem bwWrite_WF {w : BW} (hw : ∀ k, k ∉ w.keys → w.buf k = [])
    (B : Nat) (a : WKey) (l : Line) :
    ∀ k, k ∉ (bwWrite B w a l).keys → (bwWrite B w a l).buf k = [] := by
  intro k hk
  rw [bwWrite_keys] at hk
  have h1 : k ∉ w.keys ∧ k ≠ a := by
    by_cases ha : a ∈ w.keys
    · rw [if_pos ha] at hk
      exact ⟨hk, fun he => hk (he ▸ ha)⟩
    · rw [if_neg ha] at hk
      simp only [List.mem_append, List.mem_singleton, not_or] at hk
      exact hk
  rw [bwWrite_buf_ne B w a l h1.2]
  exact hw k h1.1

/-- Buffers of unregistered keys stay empty through a run of writes. -/
theorem foldl_write_WF (B : Nat) : ∀ (ops : List (WKey × Line)) (w : BW),
    (∀ k, k ∉ w.keys → w.buf k = []) →
    ∀ k, k ∉ (ops.foldl (fun w p => bwWrite B w p.1 p.2) w).keys →
      (ops.foldl (fun w p => bwWrite B w p.1 p.2) w).buf k = [] := by
  intro ops
  induction ops with
  | nil => intro w hw k hk; exact hw k hk
  | cons p ops ih =>
    intro w hw k hk
    rw [List.foldl_cons] at hk ⊢
    exact ih _ (bwWrite_WF hw B p.1 p.2) k hk

/-- Unregistered keys of a fresh run have empty buffers. -/
theorem runWriter_WF (B : Nat) (ops : List (WKey × Line)) (k : WKey)
    (hk : k ∉ (runWriter B ops).keys) : (runWriter B ops).buf k = [] := by
  unfold runWriter at hk ⊢
  exact foldl_write_WF B ops _ (fun _ _ => rfl) k hk

/-- C6 (amended): flush-then-close leaves nothing buffered — after
`close`, every key's buffer is empty and the flushed log holds, per key,
exactly the lines appended for that key during the run, in order (so
per-key lines and records are conserved); and in `organize.py`,
`write_jsonl_chunk` appends exactly one line per record of the chunk
(none when the sanitized name is empty).  Lines equal appended *groups*,
not appended records, in `organize2.py`. -/
theorem claim6_flush_close_conservation (B : Nat) (ops : List (WKey × Line)) (k : WKey)
    (my : Int × Nat) (sub : List Char) (data : List Nat)
    (log : List (((Int × Nat) × List Char) × Nat)) :
    (bwClose (runWriter B ops)).buf k = []
  ∧ (bwClose (runWriter B ops)).flushed.filter (fun e => e.1 == k)
      = ops.filter (fun e => e.1 == k)
  ∧ ((write_jsonl_chunk my sub data log).1).length
      = log.length + (if (sanitize_subreddit_name sub).isEmpty then 0 else data.length) := by
  have hbufempty : (bwClose (runWriter B ops)).buf k = [] := by
    show ((runWriter B ops).keys.foldl flushKey (runWriter B ops)).buf k = []
    apply foldl_flushKey_buf_empty
    by_cases hk : k ∈ (runWriter B ops).keys
    · exact Or.inl hk
    · exact Or.inr (runWriter_WF B ops k hk)
  have h1 : bwOut (bwClose (runWriter B ops)) k = ops.filter (fun e => e.1 == k) := by
    show bwOut ((runWriter B ops).keys.foldl flushKey (runWriter B ops)) k = _
    rw [foldl_flushKey_bwOut, runWriter_bwOut]
  unfold bwOut at h1
  rw [hbufempty, List.map_nil, List.append_nil] at h1
  refine ⟨hbufempty, h1, ?_⟩
  unfold write_jsonl_chunk
  by_cases hs : (sanitize_subreddit_name sub).isEmpty <;> simp [hs]

/-- C6 counterexample: one `organize2.py` write of a two-record group
yields a shard with one line but two appended records — records and lines
differ. -/
theorem claim6_counterexample :
    (shard (bwClose (runWriter 1000000 [(⟨(0, 1), ['a']⟩, [7, 8])])) ((0, 1), ['a'])).length = 1
  ∧ ((shard (bwClose (runWriter 1000000 [(⟨(0, 1), ['a']⟩, [7, 8])])) ((0, 1), ['a'])).map
      List.length).sum = 2
  ∧ (1 : Nat) ≠ 2 := by
  decide

/-- Membership after `os.remove`: the file survives iff it is not the
removed (stem, kind). -/
theorem mem_removeFile {g : DFile} {fs : List DFile} {b : Nat} {k : FKind} :
    g ∈ removeFile fs b k ↔ g ∈ fs ∧ (g.base = b → g.kind ≠ k) := by
  simp [removeFile, List.mem_filter, not_and, and_comm]
  tauto

/-- A compaction step never introduces a `.jsonl` file. -/
theorem compactStep_mem_jsonl {g : DFile} {fs : List DFile} {f : DFile}
    (hg : g ∈ compactStep fs f) (hk : g.kind = FKind.jsonl) : g ∈ fs := by
  unfold compactStep writeFile at hg
  rcases mem_removeFile.mp hg with ⟨hg1, _⟩
  rcases List.mem_append.mp hg1 with hg2 | hg2
  · exact (mem_removeFile.mp hg2).1
  · rw [List.mem_singleton] at hg2
    rw [hg2] at hk
    exact FKind.noConfusion hk

/-- A compaction step writes the compressed file for its target. -/
theorem compactStep_adds_zst (fs : List DFile) (f : DFile) :
    (⟨f.base, FKind.zst, compress_to_zst f.content⟩ : DFile) ∈ compactStep fs f := by
  unfold compactStep writeFile
  apply mem_removeFile.mpr
  exact ⟨List.mem_append.mpr (Or.inr (List.mem_singleton.mpr rfl)),
    fun _ hcon => FKind.noConfusion hcon⟩

/-- A compaction step removes every `.jsonl` file with its target's stem. -/
theorem compactStep_kills_jsonl (fs : List DFile) (f : DFile) (c : List Nat) :
    (⟨f.base, FKind.jsonl, c⟩ : DFile) ∉ compactStep fs f := by
  intro h
  exact (mem_removeFile.mp h).2 rfl rfl

/-- Absence of `.jsonl` files with a given stem persists through
compaction steps. -/
theorem compactStep_absent_jsonl {fs : List DFile} {b : Nat}
    (h : ∀ c, (⟨b, FKind.jsonl, c⟩ : DFile) ∉ fs) (f : DFile) :
    ∀ c, (⟨b, FKind.jsonl, c⟩ : DFile) ∉ compactStep fs f := by
  intro c hc
  exact h c (compactStep_mem_jsonl hc rfl)

/-- A compaction step for a different stem keeps a compressed file. -/
theorem compactStep_keeps_zst {b : Nat} {c : List Nat} {fs : List DFile} {f : DFile}
    (hne : b ≠ f.base) (hm : (⟨b, FKind.zst, c⟩ : DFile) ∈ fs) :
    (⟨b, FKind.zst, c⟩ : DFile) ∈ compactStep fs f := by
  unfold compactStep writeFile
  apply mem_removeFile.mpr
  refine ⟨List.mem_append.mpr (Or.inl ?_), fun _ hcon => FKind.noConfusion hcon⟩
  exact mem_removeFile.mpr ⟨hm, fun hb => absurd hb hne⟩

/-- Folding compaction steps whose targets all have other stems preserves
a stem's compressed file and its `.jsonl` absence. -/
theorem foldl_compact_keeps : ∀ (ts : List DFile) (acc : List DFile) (b : Nat),
    (∀ g ∈ ts, b ≠ g.base) →
    (∀ c, (⟨b, FKind.zst, c⟩ : DFile) ∈ acc →
      (⟨b, FKind.zst, c⟩ : DFile) ∈ ts.foldl compactStep acc)
  ∧ ((∀ c, (⟨b, FKind.jsonl, c⟩ : DFile) ∉ acc) →
      ∀ c, (⟨b, FKind.jsonl, c⟩ : DFile) ∉ ts.foldl compactStep acc) := by
  intro ts
  induction ts with
  | nil => intro acc b _; exact ⟨fun _ h => h, fun h => h⟩
  | cons f ts ih =>
    intro acc b hb
    have hbf : b ≠ f.base := hb f (List.mem_cons_self _ _)
    have hb' : ∀ g ∈ ts, b ≠ g.base := fun g hg => hb g (List.mem_cons_of_mem _ hg)
    constructor
    · intro c hc
      rw [List.foldl_cons]
      exact (ih _ b hb').1 c (compactStep_keeps_zst hbf hc)
    · intro habs c
      rw [List.foldl_cons]
      exact (ih _ b hb').2 (compactStep_absent_jsonl habs f) c

/-- Folding compaction over targets with pairwise distinct stems: every
target ends compressed and its uncompressed original ends removed. -/
theorem foldl_compact_spec : ∀ (ts : List DFile) (acc : List DFile),
    ts.Pairwise (fun a b => a.base ≠ b.base) →
    ∀ f ∈ ts,
      (⟨f.base, FKind.zst, compress_to_zst f.content⟩ : DFile) ∈ ts.foldl compactStep acc
    ∧ ∀ c, (⟨f.base, FKind.jsonl, c⟩ : DFile) ∉ ts.foldl compactStep acc := by
  intro ts
  induction ts with
  | nil => intro acc _ f hf; exact absurd hf (List.not_mem_nil _)
  | cons a ts ih =>
    intro acc hpw f hf
    have hpw' := List.pairwise_cons.mp hpw
    rw [List.foldl_cons]
    rcases List.mem_cons.mp hf with rfl | hf'
    · have hkeep := foldl_compact_keeps ts (compactStep acc f) f.base
        (fun g hg => hpw'.1 g hg)
      exact ⟨hkeep.1 _ (compactStep_adds_zst acc f),
             hkeep.2 (fun c => compactStep_kills_jsonl acc f c)⟩
    · exact ih (compactStep acc a) hpw'.2 f hf'

/-- C7 (amended): when the month directory has no `.jsonl` files the
compactor pass changes nothing, and for every `.jsonl` shard (stems
distinct, as on a real filesystem) the pass leaves the compressed file
present and the uncompressed original deleted — but it performs no
non-empty verification and no existing-output check: a shard whose
compressed output already exists is recompressed and its original deleted,
not skipped. -/
theorem claim7_compactor (fs : List DFile)
    (h : ((fs.filter (fun f => f.kind == FKind.jsonl)).map DFile.base).Nodup) :
    (fs.filter (fun f => f.kind == FKind.jsonl) = [] → compress_output_files fs = fs)
  ∧ ∀ f ∈ fs, f.kind = FKind.jsonl →
      ((⟨f.base, FKind.zst, compress_to_zst f.content⟩ : DFile) ∈ compress_output_files fs
       ∧ f ∉ compress_output_files fs) := by
  have hpw : (fs.filter (fun f => f.kind == FKind.jsonl)).Pairwise
      (fun a b => a.base ≠ b.base) := List.pairwise_map.mp h
  constructor
  · intro hempty
    unfold compress_output_files
    rw [hempty]
    rfl
  · intro f hf hk
    have hft : f ∈ fs.filter (fun f => f.kind == FKind.jsonl) := by
      rw [List.mem_filter]
      exact ⟨hf, by rw [hk]; rfl⟩
    have hs := foldl_compact_spec _ fs hpw f hft
    unfold compress_output_files
    refine ⟨hs.1, fun hmem => ?_⟩
    have hfe : f = ⟨f.base, FKind.jsonl, f.content⟩ := by
      obtain ⟨b, kd, ct⟩ := f
      simp only at hk
      rw [hk]
    rw [hfe] at hmem
    exact hs.2 f.content hmem

/-- C7 witness: a single uncompressed shard is compressed and the
compressed file is present afterwards. -/
theorem claim7_compactor_witness :
    (⟨0, FKind.zst, compress_to_zst [1]⟩ : DFile)
      ∈ compress_output_files [⟨0, FKind.jsonl, [1]⟩] :=
  ((claim7_compactor [⟨0, FKind.jsonl, [1]⟩] (by decide)).2
    ⟨0, FKind.jsonl, [1]⟩ (by decide) rfl).1

/-- C7 counterexample: re-running the compactor on a shard whose
compressed output already exists is not a no-op — the shard is
recompressed and the original deleted instead of being skipped. -/
theorem claim7_counterexample :
    compress_output_files [⟨0, FKind.jsonl, [1]⟩, ⟨0, FKind.zst, [1]⟩]
      = [⟨0, FKind.zst, [1]⟩]
  ∧ [(⟨0, FKind.zst, [1]⟩ : DFile)] ≠ [⟨0, FKind.jsonl, [1]⟩, ⟨0, FKind.zst, [1]⟩] := by
  decide

/-- Lines flushed for a key all land in (and only in) that key's shard
path. -/
theorem shard_filter_map {k : WKey} {p : (Int × Nat) × List Char}
    (h : pathOf k = p) (ls : List Line) :
    ((ls.map (fun l => (k, l))).filter (fun e => pathOf e.1 == p)).map Prod.snd = ls := by
  induction ls with
  | nil => rfl
  | cons b ls ih => simp [List.filter_cons, h, ih]

/-- C9 (amended): in `organize.py`, a chunk whose sanitized subreddit is
empty is dropped with a log message and no error — the filesystem is
unchanged; in `organize2.py`'s `BufferedWriter` no emptiness check is
made: flushing such a key appends its buffered records to the shard
`<month>/.jsonl` (empty stem) instead of dropping them. -/
theorem claim9_empty_sanitized (my : Int × Nat) (sub : List Char) (data : List Nat)
    (log : List (((Int × Nat) × List Char) × Nat)) (w : BW) (k : WKey)
    (h1 : sanitize_subreddit_name sub = []) (h2 : sanitize_subreddit_name k.sub = []) :
    write_jsonl_chunk my sub data log = (log, true)
  ∧ shard (flushKey w k) (k.my, []) = shard w (k.my, []) ++ w.buf k := by
  constructor
  · simp [write_jsonl_chunk, h1]
  · have hp : pathOf k = (k.my, ([] : List Char)) := by
      unfold pathOf
      rw [h2]
    unfold shard flushKey
    rw [List.filter_append, List.map_append, shard_filter_map hp]

/-- C9 witness: subreddit `!` sanitizes to the empty name; `organize.py`
drops the chunk, and `organize2.py`'s flush appends the buffered line to
the empty-stem shard. -/
theorem claim9_empty_sanitized_witness :
    write_jsonl_chunk (2024, 1) ['!'] [3] [] = ([], true)
  ∧ shard (flushKey ⟨[⟨(0, 1), ['!']⟩], fun _ => [[5]], []⟩ ⟨(0, 1), ['!']⟩) ((0, 1), [])
      = shard ⟨[⟨(0, 1), ['!']⟩], fun _ => [[5]], []⟩ ((0, 1), []) ++ [[5]] :=
  claim9_empty_sanitized (2024, 1) ['!'] [3] []
    ⟨[⟨(0, 1), ['!']⟩], fun _ => [[5]], []⟩ ⟨(0, 1), ['!']⟩ (by decide) (by decide)

/-- C9 counterexample: in `organize2.py` a record whose subreddit
sanitizes to the empty string is written to the shard at the empty-stem
path, not dropped. -/
theorem claim9_counterexample :
    shard (bwClose (runWriter 1000000 [(⟨(0, 1), ['!']⟩, [5])])) ((0, 1), []) = [[5]]
  ∧ sanitize_subreddit_name ['!'] = [] := by
  decide
